import Mathlib

/-
Shallow embedding of the `led_cube` crate (src/src/lib.rs), a driver for a
4x4x4 LED cube attached over a serial port.

Modelling conventions:
  * `self.state : [u8; 16]` is a `List Nat` of length 16 whose entries are byte
    values; bitwise operations carry the u8 semantics explicitly (`!mask` on a
    u8 is `mask ^^^ 255`).
  * A Rust panic (failed `assert!`, out-of-bounds index) is `none`/`panicked`.
  * The serial port is an oracle `write : List Nat → Except ε Nat` returning
    the number of bytes written or an I/O error, mirroring `io::Write::write`.
    `serial::open` is an oracle value `Except κ Unit`.
-/

/-- A position on the cube, of the form `[x, y, z]`
(Rust: `pub type CubePosition = [usize; 3]`). -/
abbrev CubePosition := Nat × Nat × Nat

/-- Rust `invert4` (src/src/lib.rs:98-100): `[3, 2, 1, 0][n]`.
Indexing past the end of the array panics in Rust; the panic is `none`. -/
def invert4 (n : Nat) : Option Nat :=
  [3, 2, 1, 0].get? n

/-- Rust `check_bounds` (src/src/lib.rs:94-96):
`assert!(pos[0] < 4 && pos[1] < 4 && pos[2] < 4)`.
Returns whether the assertion succeeds; `false` means the Rust code panics. -/
def check_bounds (pos : CubePosition) : Bool :=
  decide (pos.1 < 4) && decide (pos.2.1 < 4) && decide (pos.2.2 < 4)

/-- The all-zero pattern-buffer literal written out in `Cube::new` and
`Cube::clear`: sixteen `0b0000` bytes. -/
def zeroPattern : List Nat :=
  [0, 0, 0, 0, 0, 0, 0, 0, 0, 0, 0, 0, 0, 0, 0, 0]

/-- Rust `Cube::set` (src/src/lib.rs:65-74).  `b` is the `state : bool`
parameter.  `pattern_idx = 4 * invert4(pos[1]) + invert4(pos[2])`,
`mask = 1 << invert4(pos[0])`; then `self.state[pattern_idx] |= mask` or
`self.state[pattern_idx] &= !mask`.  `none` models a panic. -/
def Cube.set (state : List Nat) (pos : CubePosition) (b : Bool) :
    Option (List Nat) :=
  if check_bounds pos then do
    let iy ← invert4 pos.2.1
    let iz ← invert4 pos.2.2
    let pattern_idx := 4 * iy + iz
    let ix ← invert4 pos.1
    let mask := 1 <<< ix
    let byte ← state[pattern_idx]?
    if b then
      pure (state.set pattern_idx (byte ||| mask))
    else
      pure (state.set pattern_idx (byte &&& (mask ^^^ 255)))
  else
    none

/-- Rust `Cube::get` (src/src/lib.rs:80-83):
`self.state[4 * invert4(pos[1]) + invert4(pos[2])] & (1 << invert4(pos[0])) != 0`. -/
def Cube.get (state : List Nat) (pos : CubePosition) : Option Bool :=
  if check_bounds pos then do
    let iy ← invert4 pos.2.1
    let iz ← invert4 pos.2.2
    let ix ← invert4 pos.1
    let byte ← state[4 * iy + iz]?
    pure (byte &&& (1 <<< ix) != 0)
  else
    none

/-- Rust `Cube::clear` (src/src/lib.rs:86-91): assigns the all-zero literal to
`self.state`, the previous buffer being discarded. -/
def Cube.clear (_state : List Nat) : List Nat :=
  zeroPattern

/-- Rust `Cube::flush` (src/src/lib.rs:57-59):
`self.port.write(&self.state).map(|_| {})`.  The byte count returned by the
transport is discarded by `map`.  The pair's second component is the buffer
after the call: `flush` never assigns to `self.state`. -/
def Cube.flush {ε : Type} (write : List Nat → Except ε Nat)
    (state : List Nat) : Except ε Unit × List Nat :=
  ((write state).map (fun _ => ()), state)

/-- How running `Cube::new` can end: a constructed cube, a returned `Err`,
or a process panic. -/
inductive Outcome (ε α : Type) where
  | ok : α → Outcome ε α
  | err : ε → Outcome ε α
  | panicked : Outcome ε α
deriving DecidableEq

/-- Rust `Cube::new` (src/src/lib.rs:44-54): builds the cube with the all-zero
buffer literal and `port: serial::open(port).unwrap()` — a failed open panics
(`unwrap`).  Then `try!(cube.flush())` returns the flush error to the caller,
else `Result::Ok(cube)`.  `openResult` models `serial::open(port)`. -/
def Cube.new {κ ε : Type} (openResult : Except κ Unit)
    (write : List Nat → Except ε Nat) : Outcome ε (List Nat) :=
  match openResult with
  | Except.error _ => Outcome.panicked
  | Except.ok _ =>
    match Cube.flush write zeroPattern with
    | (Except.error e, _) => Outcome.err e
    | (Except.ok _, state) => Outcome.ok state

/-- The addressing computation shared by `Cube::set` and `Cube::get`
(src/src/lib.rs:66-67 and 82): after `check_bounds`, byte index
`4 * invert4(pos[1]) + invert4(pos[2])` and bit mask `1 << invert4(pos[0])`. -/
def addressOf (pos : CubePosition) : Option (Nat × Nat) :=
  if check_bounds pos then do
    let iy ← invert4 pos.2.1
    let iz ← invert4 pos.2.2
    let ix ← invert4 pos.1
    pure (4 * iy + iz, 1 <<< ix)
  else
    none

-- Helper lemmas ------------------------------------------------------------

theorem invert4_of_lt {n : Nat} (h : n < 4) : invert4 n = some (3 - n) := by
  interval_cases n <;> rfl

theorem check_bounds_eq_true {pos : CubePosition} :
    check_bounds pos = true ↔ pos.1 < 4 ∧ pos.2.1 < 4 ∧ pos.2.2 < 4 := by
  simp [check_bounds, and_assoc]

theorem check_bounds_of_valid {x y z : Nat} (hx : x < 4) (hy : y < 4)
    (hz : z < 4) : check_bounds (x, y, z) = true := by
  simp only [check_bounds]
  simp [hx, hy, hz]

theorem set_eq_of_valid {state : List Nat} (hlen : state.length = 16)
    {x y z : Nat} (hx : x < 4) (hy : y < 4) (hz : z < 4) (b : Bool) :
    Cube.set state (x, y, z) b =
      some (state.set (4 * (3 - y) + (3 - z))
        (if b then state[4 * (3 - y) + (3 - z)]?.getD 0 ||| 1 <<< (3 - x)
         else state[4 * (3 - y) + (3 - z)]?.getD 0 &&& (1 <<< (3 - x) ^^^ 255))) := by
  have hidx : 4 * (3 - y) + (3 - z) < state.length := by omega
  obtain ⟨byte, hb⟩ : ∃ a, state[4 * (3 - y) + (3 - z)]? = some a :=
    ⟨_, List.getElem?_eq_getElem hidx⟩
  cases b <;>
    simp [Cube.set, check_bounds_of_valid hx hy hz,
      invert4_of_lt hx, invert4_of_lt hy, invert4_of_lt hz, hb]

theorem get_eq_of_valid {state : List Nat} (hlen : state.length = 16)
    {x y z : Nat} (hx : x < 4) (hy : y < 4) (hz : z < 4) :
    Cube.get state (x, y, z) =
      some (state[4 * (3 - y) + (3 - z)]?.getD 0 &&& 1 <<< (3 - x) != 0) := by
  have hidx : 4 * (3 - y) + (3 - z) < state.length := by omega
  obtain ⟨byte, hb⟩ : ∃ a, state[4 * (3 - y) + (3 - z)]? = some a :=
    ⟨_, List.getElem?_eq_getElem hidx⟩
  simp [Cube.get, check_bounds_of_valid hx hy hz,
    invert4_of_lt hx, invert4_of_lt hy, invert4_of_lt hz, hb]

theorem and_shift_bne (v k : Nat) : (v &&& 1 <<< k != 0) = v.testBit k := by
  rw [Nat.one_shiftLeft, Nat.and_two_pow]
  cases h : v.testBit k
  · simp
  · simp [(Nat.two_pow_pos k).ne']

theorem set_true_eq {state : List Nat} (hlen : state.length = 16)
    {x y z : Nat} (hx : x < 4) (hy : y < 4) (hz : z < 4) :
    Cube.set state (x, y, z) true =
      some (state.set (4 * (3 - y) + (3 - z))
        (state[4 * (3 - y) + (3 - z)]?.getD 0 ||| 1 <<< (3 - x))) := by
  rw [set_eq_of_valid hlen hx hy hz true]
  simp

theorem set_false_eq {state : List Nat} (hlen : state.length = 16)
    {x y z : Nat} (hx : x < 4) (hy : y < 4) (hz : z < 4) :
    Cube.set state (x, y, z) false =
      some (state.set (4 * (3 - y) + (3 - z))
        (state[4 * (3 - y) + (3 - z)]?.getD 0 &&& (1 <<< (3 - x) ^^^ 255))) := by
  rw [set_eq_of_valid hlen hx hy hz false]
  simp

theorem shift_testBit (k i : Nat) : (1 <<< k).testBit i = decide (k = i) := by
  rw [Nat.one_shiftLeft]
  exact Nat.testBit_two_pow

theorem testBit_255 {i : Nat} (h : i < 8) : (255 : Nat).testBit i = true := by
  interval_cases i <;> rfl

theorem testBit_or_shift_self (d k : Nat) : (d ||| 1 <<< k).testBit k = true := by
  simp [shift_testBit]

theorem testBit_and_not_self (d k : Nat) (h : k < 8) :
    (d &&& (1 <<< k ^^^ 255)).testBit k = false := by
  simp [shift_testBit, testBit_255 h]

theorem testBit_or_shift_other (d k i : Nat) (h : k ≠ i) :
    (d ||| 1 <<< k).testBit i = d.testBit i := by
  simp only [Nat.testBit_or, shift_testBit]
  simp [h]

theorem testBit_and_not_other (d k i : Nat) (h : k ≠ i) (hi : i < 8) :
    (d &&& (1 <<< k ^^^ 255)).testBit i = d.testBit i := by
  simp only [Nat.testBit_and, Nat.testBit_xor, shift_testBit]
  simp [h, testBit_255 hi]

theorem addressOf_eq_of_valid {x y z : Nat} (hx : x < 4) (hy : y < 4)
    (hz : z < 4) :
    addressOf (x, y, z) = some (4 * (3 - y) + (3 - z), 1 <<< (3 - x)) := by
  simp [addressOf, check_bounds_of_valid hx hy hz,
    invert4_of_lt hx, invert4_of_lt hy, invert4_of_lt hz]

theorem zeroPattern_getElem? : ∀ i, i < 16 → zeroPattern[i]? = some 0 := by
  decide

-- Test doubles for the transport, as in the spec's simulated-transport tests.

/-- A transport whose write always fails. -/
def failingWrite : List Nat → Except Unit Nat :=
  fun _ => Except.error ()

/-- A transport that accepts only 7 of the bytes handed to it (a short write). -/
def shortWrite : List Nat → Except Unit Nat :=
  fun _ => Except.ok 7

/-- A transport that accepts all 16 bytes. -/
def okWrite : List Nat → Except Unit Nat :=
  fun _ => Except.ok 16

-- Claims --------------------------------------------------------------------

/-- C1: for every coordinate `[x, y, z]` with all components strictly less
than 4, `set` and `get` address the pattern buffer at byte index
`4 * inv(y) + inv(z)` with bit mask `1 <<< inv(x)`, where `inv n = 3 - n`;
in particular `Set([0,0,0], true)` on the all-zero buffer yields the buffer
whose byte 15 is `0b1000 = 8` and whose other 15 bytes are zero. -/
theorem set_get_addressing (state : List Nat) (hlen : state.length = 16)
    (x y z : Nat) (hx : x < 4) (hy : y < 4) (hz : z < 4) (b : Bool) :
    Cube.set state (x, y, z) b =
      some (state.set (4 * (3 - y) + (3 - z))
        (if b then state[4 * (3 - y) + (3 - z)]?.getD 0 ||| 1 <<< (3 - x)
         else state[4 * (3 - y) + (3 - z)]?.getD 0 &&& (1 <<< (3 - x) ^^^ 255))) ∧
    Cube.get state (x, y, z) =
      some (state[4 * (3 - y) + (3 - z)]?.getD 0 &&& 1 <<< (3 - x) != 0) ∧
    Cube.set zeroPattern (0, 0, 0) true =
      some [0, 0, 0, 0, 0, 0, 0, 0, 0, 0, 0, 0, 0, 0, 0, 8] :=
  ⟨set_eq_of_valid hlen hx hy hz b, get_eq_of_valid hlen hx hy hz, by decide⟩

/-- Witness for C1 at the all-zero buffer, coordinate `[0,0,0]`, `b = true`. -/
theorem set_get_addressing_witness :
    zeroPattern.length = 16 ∧ (0 : Nat) < 4 ∧
    (Cube.set zeroPattern (0, 0, 0) true =
      some (zeroPattern.set (4 * (3 - 0) + (3 - 0))
        (if true then zeroPattern[4 * (3 - 0) + (3 - 0)]?.getD 0 ||| 1 <<< (3 - 0)
         else zeroPattern[4 * (3 - 0) + (3 - 0)]?.getD 0 &&& (1 <<< (3 - 0) ^^^ 255))) ∧
     Cube.get zeroPattern (0, 0, 0) =
      some (zeroPattern[4 * (3 - 0) + (3 - 0)]?.getD 0 &&& 1 <<< (3 - 0) != 0) ∧
     Cube.set zeroPattern (0, 0, 0) true =
      some [0, 0, 0, 0, 0, 0, 0, 0, 0, 0, 0, 0, 0, 0, 0, 8]) :=
  ⟨rfl, by decide,
    set_get_addressing zeroPattern rfl 0 0 0 (by decide) (by decide) (by decide) true⟩

/-- C2: for every coordinate with all components in `[0,4)` the addressing
computation yields a byte index in `[0,16)` and a bit mask that is a single
set bit in the low nibble, and no two distinct valid coordinates produce the
same (byte index, bit mask) pair. -/
theorem addressing_range_and_injective :
    (∀ x y z : Nat, x < 4 → y < 4 → z < 4 →
      ∃ i m, addressOf (x, y, z) = some (i, m) ∧ i < 16 ∧
        (m = 1 ∨ m = 2 ∨ m = 4 ∨ m = 8)) ∧
    (∀ x y z x' y' z' : Nat, x < 4 → y < 4 → z < 4 → x' < 4 → y' < 4 → z' < 4 →
      addressOf (x, y, z) = addressOf (x', y', z') →
      x = x' ∧ y = y' ∧ z = z') := by
  constructor
  · intro x y z hx hy hz
    refine ⟨_, _, addressOf_eq_of_valid hx hy hz, by omega, ?_⟩
    interval_cases x <;> decide
  · intro x y z x' y' z' hx hy hz hx' hy' hz' h
    rw [addressOf_eq_of_valid hx hy hz, addressOf_eq_of_valid hx' hy' hz'] at h
    simp only [Option.some_inj, Prod.mk.injEq] at h
    obtain ⟨hidx, hmask⟩ := h
    rw [Nat.one_shiftLeft, Nat.one_shiftLeft] at hmask
    have hxeq := Nat.pow_right_injective (Nat.le_refl 2) hmask
    refine ⟨by omega, by omega, by omega⟩

/-- Witness for C2 at coordinate `[1, 2, 3]` (twice, for injectivity). -/
theorem addressing_range_and_injective_witness :
    (∃ i m, addressOf (1, 2, 3) = some (i, m) ∧ i < 16 ∧
      (m = 1 ∨ m = 2 ∨ m = 4 ∨ m = 8)) ∧
    ((1 : Nat) = 1 ∧ (2 : Nat) = 2 ∧ (3 : Nat) = 3) :=
  ⟨addressing_range_and_injective.1 1 2 3 (by decide) (by decide) (by decide),
   addressing_range_and_injective.2 1 2 3 1 2 3 (by decide) (by decide)
     (by decide) (by decide) (by decide) (by decide) rfl⟩

/-- C4 counterexample: a transport whose write reports only 7 of the 16 bytes
written still makes `flush` return success — the code discards the byte count
(`.map(|_| {})`), so a short write is not turned into an `IoError`. -/
theorem flush_short_write_cex :
    shortWrite zeroPattern = Except.ok 7 ∧ (7 : Nat) < 16 ∧
    (Cube.flush shortWrite zeroPattern).1 = Except.ok () :=
  ⟨rfl, by decide, rfl⟩

/-- C4 (amended): `flush` hands the entire 16-byte buffer to the transport in
a single write call; if the transport's write returns an error, `flush`
propagates it; if the write returns a byte count — any count, including a
short one — `flush` returns success.  The short-write check stated in the
spec is not performed. -/
theorem flush_propagates_error {ε : Type} (write : List Nat → Except ε Nat)
    (state : List Nat) :
    (∀ e, write state = Except.error e →
      (Cube.flush write state).1 = Except.error e) ∧
    (∀ n, write state = Except.ok n →
      (Cube.flush write state).1 = Except.ok ()) := by
  constructor <;> intro v hv <;> simp [Cube.flush, hv, Except.map]

/-- Witness for C4's amended claim: error propagation on a failing transport
and success on a short write. -/
theorem flush_propagates_error_witness :
    (Cube.flush failingWrite zeroPattern).1 = Except.error () ∧
    (Cube.flush shortWrite zeroPattern).1 = Except.ok () :=
  ⟨(flush_propagates_error failingWrite zeroPattern).1 () rfl,
   (flush_propagates_error shortWrite zeroPattern).2 7 rfl⟩

/-- C6: calling `set` or `get` with any component `≥ 4` fails the
`check_bounds` assertion and panics (`none`); the buffer is never accessed
out of bounds and no bit of any other coordinate is read or written. -/
theorem out_of_range_panics (state : List Nat) (pos : CubePosition) (b : Bool)
    (h : 4 ≤ pos.1 ∨ 4 ≤ pos.2.1 ∨ 4 ≤ pos.2.2) :
    Cube.set state pos b = none ∧ Cube.get state pos = none := by
  have hcb : check_bounds pos = false := by
    simp only [check_bounds]
    simp only [Bool.and_eq_false_iff, decide_eq_false_iff_not, Nat.not_lt]
    omega
  constructor <;> simp [Cube.set, Cube.get, hcb]

/-- Witness for C6 at `[4, 0, 0]` on the all-zero buffer. -/
theorem out_of_range_panics_witness :
    (4 ≤ (4 : Nat) ∨ 4 ≤ (0 : Nat) ∨ 4 ≤ (0 : Nat)) ∧
    (Cube.set zeroPattern (4, 0, 0) true = none ∧
     Cube.get zeroPattern (4, 0, 0) = none) :=
  ⟨Or.inl (by decide),
   out_of_range_panics zeroPattern (4, 0, 0) true (Or.inl (by decide))⟩

/-- C3: for every valid coordinate and length-16 buffer, `Get c` after
`Set(c, true)` returns `true`; `Get c` after `Set(c, true)` then
`Set(c, false)` returns `false`; and `Set` at `c` leaves `Get` at any
distinct valid coordinate `c'` unchanged (no aliasing). -/
theorem set_get_no_aliasing (state : List Nat) (hlen : state.length = 16)
    (x y z x' y' z' : Nat) (hx : x < 4) (hy : y < 4) (hz : z < 4)
    (hx' : x' < 4) (hy' : y' < 4) (hz' : z' < 4) (b : Bool) :
    ((Cube.set state (x, y, z) true).bind fun s => Cube.get s (x, y, z)) =
      some true ∧
    (((Cube.set state (x, y, z) true).bind fun s =>
        Cube.set s (x, y, z) false).bind fun s => Cube.get s (x, y, z)) =
      some false ∧
    (((x, y, z) : CubePosition) ≠ (x', y', z') →
      ((Cube.set state (x, y, z) b).bind fun s => Cube.get s (x', y', z')) =
        Cube.get state (x', y', z')) := by
  have hidx : 4 * (3 - y) + (3 - z) < state.length := by omega
  refine ⟨?_, ?_, ?_⟩
  · rw [set_true_eq hlen hx hy hz, Option.some_bind,
      get_eq_of_valid (by simp [hlen]) hx hy hz,
      List.getElem?_set_self hidx, Option.getD_some,
      and_shift_bne, testBit_or_shift_self]
  · rw [set_true_eq hlen hx hy hz, Option.some_bind,
      set_false_eq (by simp [hlen]) hx hy hz, Option.some_bind,
      get_eq_of_valid (by simp [hlen]) hx hy hz, List.set_set,
      List.getElem?_set_self hidx, Option.getD_some,
      List.getElem?_set_self hidx, Option.getD_some,
      and_shift_bne, testBit_and_not_self _ _ (by omega)]
  · intro hne
    have hor : (4 * (3 - y) + (3 - z) ≠ 4 * (3 - y') + (3 - z')) ∨
        (y = y' ∧ z = z' ∧ 3 - x ≠ 3 - x') := by
      by_cases hyy : y = y' ∧ z = z'
      · refine Or.inr ⟨hyy.1, hyy.2, ?_⟩
        have hxx : x ≠ x' := fun hxx => hne (by rw [hxx, hyy.1, hyy.2])
        omega
      · exact Or.inl (by omega)
    cases b
    · rw [set_false_eq hlen hx hy hz, Option.some_bind,
        get_eq_of_valid (by simp [hlen]) hx' hy' hz',
        get_eq_of_valid hlen hx' hy' hz']
      rcases hor with hne' | ⟨rfl, rfl, hk⟩
      · rw [List.getElem?_set_ne hne']
      · rw [List.getElem?_set_self hidx, Option.getD_some,
          and_shift_bne, and_shift_bne,
          testBit_and_not_other _ _ _ hk (by omega)]
    · rw [set_true_eq hlen hx hy hz, Option.some_bind,
        get_eq_of_valid (by simp [hlen]) hx' hy' hz',
        get_eq_of_valid hlen hx' hy' hz']
      rcases hor with hne' | ⟨rfl, rfl, hk⟩
      · rw [List.getElem?_set_ne hne']
      · rw [List.getElem?_set_self hidx, Option.getD_some,
          and_shift_bne, and_shift_bne,
          testBit_or_shift_other _ _ _ hk]

/-- Witness for C3 at the all-zero buffer, `c = [0,0,0]`, `c' = [1,0,0]`. -/
theorem set_get_no_aliasing_witness :
    zeroPattern.length = 16 ∧
    (((Cube.set zeroPattern (0, 0, 0) true).bind fun s =>
        Cube.get s (0, 0, 0)) = some true ∧
     (((Cube.set zeroPattern (0, 0, 0) true).bind fun s =>
        Cube.set s (0, 0, 0) false).bind fun s => Cube.get s (0, 0, 0)) =
      some false ∧
     (((0, 0, 0) : CubePosition) ≠ (1, 0, 0) →
      ((Cube.set zeroPattern (0, 0, 0) true).bind fun s =>
        Cube.get s (1, 0, 0)) = Cube.get zeroPattern (1, 0, 0))) :=
  ⟨rfl, set_get_no_aliasing zeroPattern rfl 0 0 0 1 0 0 (by decide) (by decide)
    (by decide) (by decide) (by decide) (by decide) true⟩

/-- C5 counterexample: when the transport cannot be opened, `Cube::new`
panics (`serial::open(port).unwrap()`); it does not return an error result,
contradicting the claim that construction fails with a returned
`ConnectionError`. -/
theorem new_open_failure_cex :
    Cube.new (Except.error ()) okWrite = Outcome.panicked ∧
    (Outcome.panicked : Outcome Unit (List Nat)) ≠ Outcome.err () :=
  ⟨rfl, by decide⟩

/-- C5 (amended): `Cube::new` initializes the pattern buffer to all-zero and
performs one flush of it; if the transport cannot be opened, construction
panics (fails loudly) instead of returning a `ConnectionError` result; if the
open succeeds and the initial flush fails, the I/O error is returned; on
either failure no usable controller is produced. -/
theorem new_behaviour {κ ε : Type} (openResult : Except κ Unit)
    (write : List Nat → Except ε Nat) :
    (∀ k, openResult = Except.error k →
      Cube.new openResult write = Outcome.panicked) ∧
    (∀ e, openResult = Except.ok () → write zeroPattern = Except.error e →
      Cube.new openResult write = Outcome.err e) ∧
    (∀ n, openResult = Except.ok () → write zeroPattern = Except.ok n →
      Cube.new openResult write = Outcome.ok zeroPattern) := by
  refine ⟨?_, ?_, ?_⟩
  · intro k hk
    rw [hk]
    rfl
  · intro e ho hw
    rw [ho]
    simp [Cube.new, Cube.flush, hw, Except.map]
  · intro n ho hw
    rw [ho]
    simp [Cube.new, Cube.flush, hw, Except.map]

/-- Witness for C5's amended claim on concrete transports. -/
theorem new_behaviour_witness :
    Cube.new (Except.error () : Except Unit Unit) okWrite = Outcome.panicked ∧
    Cube.new (Except.ok () : Except Unit Unit) failingWrite = Outcome.err () ∧
    Cube.new (Except.ok () : Except Unit Unit) okWrite = Outcome.ok zeroPattern :=
  ⟨(new_behaviour (Except.error () : Except Unit Unit) okWrite).1 () rfl,
   (new_behaviour (Except.ok () : Except Unit Unit) failingWrite).2.1 () rfl rfl,
   (new_behaviour (Except.ok () : Except Unit Unit) okWrite).2.2 16 rfl rfl⟩

/-- C7: the low-nibble invariant — every byte of the pattern buffer is less
than 16, i.e. bits 4-7 are zero — holds for the buffer `Cube::new` starts
from, and is preserved by every non-panicking `set`, by `clear`, and by
`flush`, which leaves the buffer unchanged (`get` takes the buffer immutably
and cannot modify it, as its type shows). -/
theorem nibble_invariant :
    (∀ byte ∈ zeroPattern, byte < 16) ∧
    (∀ (state : List Nat) (pos : CubePosition) (b : Bool) (state' : List Nat),
      state.length = 16 → (∀ byte ∈ state, byte < 16) →
      Cube.set state pos b = some state' → ∀ byte ∈ state', byte < 16) ∧
    (∀ state : List Nat, ∀ byte ∈ Cube.clear state, byte < 16) ∧
    (∀ (ε : Type) (write : List Nat → Except ε Nat) (state : List Nat),
      (Cube.flush write state).2 = state) := by
  refine ⟨by decide, ?_, ?_, fun ε write state => rfl⟩
  · intro state pos b state' hlen hinv hset
    obtain ⟨x, y, z⟩ := pos
    by_cases hcb : check_bounds (x, y, z) = true
    · obtain ⟨hx, hy, hz⟩ := check_bounds_eq_true.mp hcb
      have hidx : 4 * (3 - y) + (3 - z) < state.length := by omega
      have hd : state[4 * (3 - y) + (3 - z)]?.getD 0 < 16 := by
        rw [List.getElem?_eq_getElem hidx, Option.getD_some]
        exact hinv _ (List.getElem_mem hidx)
      cases b
      · rw [set_false_eq hlen hx hy hz] at hset
        obtain rfl := Option.some_inj.mp hset
        intro byte hmem
        rcases List.mem_or_eq_of_mem_set hmem with hmem' | rfl
        · exact hinv byte hmem'
        · exact Nat.lt_of_le_of_lt Nat.and_le_left hd
      · rw [set_true_eq hlen hx hy hz] at hset
        obtain rfl := Option.some_inj.mp hset
        intro byte hmem
        rcases List.mem_or_eq_of_mem_set hmem with hmem' | rfl
        · exact hinv byte hmem'
        · have hm : 1 <<< (3 - x) < 16 := by
            rw [Nat.one_shiftLeft]
            have h3 : 3 - x ≤ 3 := by omega
            exact Nat.lt_of_le_of_lt
              (Nat.pow_le_pow_right (by decide) h3) (by decide)
          have h16 : (16 : Nat) = 2 ^ 4 := by decide
          rw [h16] at hd hm ⊢
          exact Nat.or_lt_two_pow hd hm
    · simp [Cube.set, hcb] at hset
  · intro state byte hmem
    simp [Cube.clear, zeroPattern] at hmem
    omega

/-- Witness for C7: preservation of the nibble invariant across a concrete
`Set([0,0,0], true)`. -/
theorem nibble_invariant_witness :
    zeroPattern.length = 16 ∧
    (∀ byte ∈ zeroPattern, byte < 16) ∧
    (∀ byte ∈ [0, 0, 0, 0, 0, 0, 0, 0, 0, 0, 0, 0, 0, 0, 0, 8], byte < 16) :=
  ⟨rfl, by decide,
   nibble_invariant.2.1 zeroPattern (0, 0, 0) true
     [0, 0, 0, 0, 0, 0, 0, 0, 0, 0, 0, 0, 0, 0, 0, 8]
     rfl (by decide) (by decide)⟩

/-- C8: if the transport's write fails, `flush` reports the error and the
in-memory pattern buffer is left unchanged, so a subsequent `get` at any
coordinate returns the same value as before the failed flush. -/
theorem flush_failure_preserves_buffer {ε : Type}
    (write : List Nat → Except ε Nat) (state : List Nat) (e : ε)
    (h : write state = Except.error e) :
    (Cube.flush write state).1 = Except.error e ∧
    (Cube.flush write state).2 = state ∧
    (∀ pos : CubePosition,
      Cube.get (Cube.flush write state).2 pos = Cube.get state pos) := by
  refine ⟨?_, rfl, fun pos => rfl⟩
  simp [Cube.flush, h, Except.map]

/-- Witness for C8 on a transport that always fails. -/
theorem flush_failure_preserves_buffer_witness :
    failingWrite zeroPattern = Except.error () ∧
    ((Cube.flush failingWrite zeroPattern).1 = Except.error () ∧
     (Cube.flush failingWrite zeroPattern).2 = zeroPattern ∧
     (∀ pos : CubePosition,
       Cube.get (Cube.flush failingWrite zeroPattern).2 pos =
         Cube.get zeroPattern pos)) :=
  ⟨rfl, flush_failure_preserves_buffer failingWrite zeroPattern () rfl⟩

/-- C9: after `clear`, `get` returns `false` for every valid coordinate, and
`clear` resets every byte of the pattern buffer to zero. -/
theorem clear_then_get_false (state : List Nat) (x y z : Nat)
    (hx : x < 4) (hy : y < 4) (hz : z < 4) :
    Cube.get (Cube.clear state) (x, y, z) = some false ∧
    (∀ i, i < 16 → (Cube.clear state)[i]? = some 0) := by
  refine ⟨?_, fun i hi => zeroPattern_getElem? i hi⟩
  show Cube.get zeroPattern (x, y, z) = some false
  rw [get_eq_of_valid (by decide) hx hy hz,
    zeroPattern_getElem? _ (by omega), Option.getD_some]
  simp

/-- Witness for C9 at coordinate `[0, 0, 0]`. -/
theorem clear_then_get_false_witness :
    (0 : Nat) < 4 ∧
    (Cube.get (Cube.clear zeroPattern) (0, 0, 0) = some false ∧
     (∀ i, i < 16 → (Cube.clear zeroPattern)[i]? = some 0)) :=
  ⟨by decide,
   clear_then_get_false zeroPattern 0 0 0 (by decide) (by decide) (by decide)⟩

/-- C10: `set` is idempotent — applying `Set(c, b)` twice in succession
leaves the pattern buffer exactly as applying it once. -/
theorem set_idempotent (state : List Nat) (hlen : state.length = 16)
    (x y z : Nat) (hx : x < 4) (hy : y < 4) (hz : z < 4) (b : Bool) :
    ((Cube.set state (x, y, z) b).bind fun s => Cube.set s (x, y, z) b) =
      Cube.set state (x, y, z) b := by
  have hidx : 4 * (3 - y) + (3 - z) < state.length := by omega
  cases b
  · rw [set_false_eq hlen hx hy hz, Option.some_bind,
      set_false_eq (by simp [hlen]) hx hy hz,
      List.getElem?_set_self hidx, Option.getD_some, List.set_set,
      Nat.and_assoc, Nat.and_self]
  · rw [set_true_eq hlen hx hy hz, Option.some_bind,
      set_true_eq (by simp [hlen]) hx hy hz,
      List.getElem?_set_self hidx, Option.getD_some, List.set_set,
      Nat.or_assoc, Nat.or_self]

/-- Witness for C10 at the all-zero buffer, `c = [0,0,0]`, `b = true`. -/
theorem set_idempotent_witness :
    zeroPattern.length = 16 ∧
    ((Cube.set zeroPattern (0, 0, 0) true).bind fun s =>
        Cube.set s (0, 0, 0) true) = Cube.set zeroPattern (0, 0, 0) true :=
  ⟨rfl, set_idempotent zeroPattern rfl 0 0 0 (by decide) (by decide)
    (by decide) true⟩
